import Mathlib

/-!
# Cigarette smokers: the agent, the listeners, the dispatcher and the smokers

A model of `smoke.c`.  Seven threads share one mutex.  Every thread takes the
mutex when it starts and gives it up only inside `uthread_cond_wait` (the agent
also when it returns), so the code a thread runs from one wait to the next is
one indivisible block.  A step of the model is one such block of one thread;
which runnable thread goes next is left open.
-/

namespace Smoke

/-! ## Data -/

/-- The constant `NUM_ITERATIONS`, defined as 1000. -/
def NUM_ITERATIONS : Nat := 1000

/-- The value `MATCH = 1` of `enum Resource`. -/
def MATCH : Int := 1

/-- The value `PAPER = 2` of `enum Resource`. -/
def PAPER : Int := 2

/-- The value `TOBACCO = 4` of `enum Resource`. -/
def TOBACCO : Int := 4

/-- The seven condition variables: the four of `struct Agent` (`a->match`,
`a->paper`, `a->tobacco`, `a->smoke`) and the three globals. -/
inductive Cond where
  | a_match
  | a_paper
  | a_tobacco
  | a_smoke
  | match_and_paper
  | paper_and_tobacco
  | match_and_tobacco
  deriving DecidableEq, Repr

/-- The seven threads created by `main`, named after their procedures. -/
inductive Thread where
  | agent
  | tobacco_listener
  | paper_listener
  | match_listener
  | tabacco_smoker
  | match_smoker
  | paper_smoker
  deriving DecidableEq, Repr

/-- Where a thread stands between two blocks: `entry` before its
`uthread_mutex_lock`, `blocked` inside `uthread_cond_wait`, `woken` once its
condition was signalled and it only needs the mutex back, `finished` after
`return`. -/
inductive PC where
  | entry
  | blocked
  | woken
  | finished
  deriving DecidableEq, Repr

/-- The shared variables of `smoke.c`, the agent's loop variable `i`, the
position of every thread, and the list of all `uthread_cond_signal` calls made
so far (oldest first). -/
structure State where
  sum : Int
  signal_count : List Int
  smoke_count : List Int
  i : Nat
  pc : Thread → PC
  signals : List Cond

/-- The state `main` starts the threads in: `sum = 0`, both `int [5]` arrays
zeroed, no thread has run yet. -/
def init : State where
  sum := 0
  signal_count := [0, 0, 0, 0, 0]
  smoke_count := [0, 0, 0, 0, 0]
  i := 0
  pc := fun _ => PC.entry
  signals := []

/-- The only thread that ever calls `uthread_cond_wait` on a condition. -/
def waiter : Cond → Thread
  | Cond.a_match => Thread.match_listener
  | Cond.a_paper => Thread.paper_listener
  | Cond.a_tobacco => Thread.tobacco_listener
  | Cond.a_smoke => Thread.agent
  | Cond.match_and_paper => Thread.tabacco_smoker
  | Cond.paper_and_tobacco => Thread.match_smoker
  | Cond.match_and_tobacco => Thread.paper_smoker

/-- Overwrite one thread's position. -/
def setPc (pc : Thread → PC) (t : Thread) (v : PC) : Thread → PC :=
  fun u => if u = t then v else pc u

/-- Modelled from the spec: `uthread_cond_signal` of the absent uthread
library, a standard condition variable associated with the mutex.  A thread
blocked on the condition becomes runnable; with no thread blocked the signal is
lost.  Each condition has one waiting thread (`waiter`), so its queue is empty
or holds that thread.  The caller keeps the mutex. -/
def uthread_cond_signal (c : Cond) (s : State) : State :=
  { s with
    signals := s.signals ++ [c]
    pc := if s.pc (waiter c) = PC.blocked then setPc s.pc (waiter c) PC.woken else s.pc }

/-- Modelled from the spec: `uthread_cond_wait` of the absent uthread library.
The caller, always `waiter c`, blocks on `c` and releases the mutex, which ends
its block. -/
def uthread_cond_wait (c : Cond) (s : State) : State :=
  { s with pc := setPc s.pc (waiter c) PC.blocked }

/-- The C statement `a[k]++` on an `int` array.  The counters stay within the
number of rounds (`counters_bounded`), so no wrap-around is modelled. -/
def incr (a : List Int) (k : Int) : List Int :=
  a.set k.toNat (a.getD k.toNat 0 + 1)

/-- The C expression `a[k]`. -/
def at_ (a : List Int) (k : Int) : Int :=
  a.getD k.toNat 0

/-! ## The agent -/

/-- The agent's table `choices[] = {MATCH|PAPER, MATCH|TOBACCO, PAPER|TOBACCO}`. -/
def choices : List Int :=
  [Int.lor MATCH PAPER, Int.lor MATCH TOBACCO, Int.lor PAPER TOBACCO]

/-- The agent's table `matching_smoker[] = {TOBACCO, PAPER, MATCH}`. -/
def matching_smoker : List Int :=
  [TOBACCO, PAPER, MATCH]

/-- One pass through the body of the agent's `for` loop, where `rand` is the
value `random()` returned: the increment of `signal_count`, the three guarded
signals, and the wait on `a->smoke`. -/
def agent_round (rand : Nat) (s : State) : State :=
  let r := rand % 3
  let s := { s with signal_count := incr s.signal_count (matching_smoker.getD r 0) }
  let c := choices.getD r 0
  let s := if Int.land c MATCH ≠ 0 then uthread_cond_signal Cond.a_match s else s
  let s := if Int.land c PAPER ≠ 0 then uthread_cond_signal Cond.a_paper s else s
  let s := if Int.land c TOBACCO ≠ 0 then uthread_cond_signal Cond.a_tobacco s else s
  uthread_cond_wait Cond.a_smoke s

/-- The test `i < NUM_ITERATIONS` of the agent's loop followed by either the
loop body or the unlock and `return`.  `R` stands for `NUM_ITERATIONS` and
`rnd k` for the value of the `k`-th call of `random()`. -/
def agent_loop (R : Nat) (rnd : Nat → Nat) (s : State) : State :=
  if s.i < R then agent_round (rnd s.i) s
  else { s with pc := setPc s.pc Thread.agent PC.finished }

/-- The next block of the `agent` thread: from `entry` it locks and enters the
loop with `i = 0`; woken from its wait on `a->smoke` it does `i++` and tests
the loop condition again. -/
def agent (R : Nat) (rnd : Nat → Nat) (s : State) : Option State :=
  match s.pc Thread.agent with
  | PC.entry => some (agent_loop R rnd { s with i := 0 })
  | PC.woken => some (agent_loop R rnd { s with i := s.i + 1 })
  | _ => none

/-! ## The dispatcher and the listeners -/

/-- The `switch` of `try_wake_up_smoker(int s)`. -/
def try_wake_up_smoker (s : Int) (st : State) : State :=
  if s = MATCH + PAPER then
    { uthread_cond_signal Cond.match_and_paper st with sum := 0 }
  else if s = PAPER + TOBACCO then
    { uthread_cond_signal Cond.paper_and_tobacco st with sum := 0 }
  else if s = MATCH + TOBACCO then
    { uthread_cond_signal Cond.match_and_tobacco st with sum := 0 }
  else st

/-- The listener's statement `sum = sum + v;`. -/
def add_resource (v : Int) (s : State) : State :=
  { s with sum := s.sum + v }

/-- The part of a listener's loop body after its wait returned:
`sum = sum + v; try_wake_up_smoker(sum);`. -/
def listener_body (v : Int) (s : State) : State :=
  let s := add_resource v s
  try_wake_up_smoker s.sum s

/-- The next block of `tobacco_listener`. -/
def tobacco_listener (s : State) : Option State :=
  match s.pc Thread.tobacco_listener with
  | PC.entry => some (uthread_cond_wait Cond.a_tobacco s)
  | PC.woken => some (uthread_cond_wait Cond.a_tobacco (listener_body TOBACCO s))
  | _ => none

/-- The next block of `paper_listener`. -/
def paper_listener (s : State) : Option State :=
  match s.pc Thread.paper_listener with
  | PC.entry => some (uthread_cond_wait Cond.a_paper s)
  | PC.woken => some (uthread_cond_wait Cond.a_paper (listener_body PAPER s))
  | _ => none

/-- The next block of `match_listener`. -/
def match_listener (s : State) : Option State :=
  match s.pc Thread.match_listener with
  | PC.entry => some (uthread_cond_wait Cond.a_match s)
  | PC.woken => some (uthread_cond_wait Cond.a_match (listener_body MATCH s))
  | _ => none

/-! ## The smokers -/

/-- The part of a smoker's loop body after its wait returned:
`uthread_cond_signal(a->smoke); smoke_count[v]++;`. -/
def smoker_body (v : Int) (s : State) : State :=
  let s := uthread_cond_signal Cond.a_smoke s
  { s with smoke_count := incr s.smoke_count v }

/-- The next block of `tabacco_smoker`. -/
def tabacco_smoker (s : State) : Option State :=
  match s.pc Thread.tabacco_smoker with
  | PC.entry => some (uthread_cond_wait Cond.match_and_paper s)
  | PC.woken => some (uthread_cond_wait Cond.match_and_paper (smoker_body TOBACCO s))
  | _ => none

/-- The next block of `match_smoker`. -/
def match_smoker (s : State) : Option State :=
  match s.pc Thread.match_smoker with
  | PC.entry => some (uthread_cond_wait Cond.paper_and_tobacco s)
  | PC.woken => some (uthread_cond_wait Cond.paper_and_tobacco (smoker_body MATCH s))
  | _ => none

/-- The next block of `paper_smoker`. -/
def paper_smoker (s : State) : Option State :=
  match s.pc Thread.paper_smoker with
  | PC.entry => some (uthread_cond_wait Cond.match_and_tobacco s)
  | PC.woken => some (uthread_cond_wait Cond.match_and_tobacco (smoker_body PAPER s))
  | _ => none

/-! ## Steps, runs and reachable states -/

/-- Thread `t` runs its next block, if it is runnable. -/
def step (R : Nat) (rnd : Nat → Nat) (s : State) : Thread → Option State
  | Thread.agent => agent R rnd s
  | Thread.tobacco_listener => tobacco_listener s
  | Thread.paper_listener => paper_listener s
  | Thread.match_listener => match_listener s
  | Thread.tabacco_smoker => tabacco_smoker s
  | Thread.match_smoker => match_smoker s
  | Thread.paper_smoker => paper_smoker s

/-- Run the threads in the order of a schedule; `none` when a scheduled thread
is not runnable. -/
def run (R : Nat) (rnd : Nat → Nat) : List Thread → State → Option State
  | [], s => some s
  | t :: ts, s => (step R rnd s t).bind (run R rnd ts)

/-- The states the program can be in between two blocks. -/
inductive Reachable (R : Nat) (rnd : Nat → Nat) : State → Prop where
  | start : Reachable R rnd init
  | next (s s' : State) (t : Thread) :
      Reachable R rnd s → step R rnd s t = some s' → Reachable R rnd s'

/-! ## What the counters should hold -/

/-- The resource a listener listens for, or a smoker owns (`0` for the agent). -/
def resource : Thread → Int
  | Thread.agent => 0
  | Thread.tobacco_listener => TOBACCO
  | Thread.paper_listener => PAPER
  | Thread.match_listener => MATCH
  | Thread.tabacco_smoker => TOBACCO
  | Thread.match_smoker => MATCH
  | Thread.paper_smoker => PAPER

/-- The three listener threads. -/
def isListener : Thread → Bool
  | Thread.tobacco_listener => true
  | Thread.paper_listener => true
  | Thread.match_listener => true
  | _ => false

/-- The three smoker threads. -/
def isSmoker : Thread → Bool
  | Thread.tabacco_smoker => true
  | Thread.match_smoker => true
  | Thread.paper_smoker => true
  | _ => false

/-- The resource missing from the pair of the agent's current round. -/
def absent (rnd : Nat → Nat) (i : Nat) : Int :=
  matching_smoker.getD (rnd i % 3) 0

/-- The counter array after `n` rounds with the choices `rnd 0, ..., rnd (n-1)`:
one increment per round, at the round's `matching_smoker` entry. -/
def tally (rnd : Nat → Nat) : Nat → List Int
  | 0 => [0, 0, 0, 0, 0]
  | n + 1 => incr (tally rnd n) (matching_smoker.getD (rnd n % 3) 0)

/-- How many rounds the agent has started. -/
def started (s : State) : Nat :=
  match s.pc Thread.agent with
  | PC.entry => 0
  | PC.blocked => s.i + 1
  | PC.woken => s.i + 1
  | PC.finished => s.i

/-- How many rounds a smoker has completed. -/
def smoked (s : State) : Nat :=
  match s.pc Thread.agent with
  | PC.entry => 0
  | PC.blocked => s.i
  | PC.woken => s.i + 1
  | PC.finished => s.i

/-- The invariant of the program: the counters follow the rounds; while the
agent is not blocked nothing is in flight; while it is blocked the accumulator
and the woken listeners hold distinct resources of the chosen pair, and a woken
smoker is the one owning the absent resource, woken with nothing left in
flight; every completed round has sent one signal on `a->smoke`. -/
def Inv (R : Nat) (rnd : Nat → Nat) (s : State) : Prop :=
  s.signal_count = tally rnd (started s) ∧
  s.smoke_count = tally rnd (smoked s) ∧
  (s.pc Thread.agent = PC.blocked ∨ s.pc Thread.agent = PC.woken → s.i < R) ∧
  (s.pc Thread.agent = PC.finished → s.i = R) ∧
  (s.pc Thread.agent ≠ PC.blocked →
    s.sum = 0 ∧ ∀ t, t ≠ Thread.agent → s.pc t ≠ PC.woken) ∧
  (s.sum = 0 ∨ s.sum = MATCH ∨ s.sum = PAPER ∨ s.sum = TOBACCO) ∧
  (s.pc Thread.agent = PC.blocked →
    s.sum ≠ absent rnd s.i ∧
    (∀ u, isListener u = true → s.pc u = PC.woken →
      resource u ≠ absent rnd s.i ∧ s.sum ≠ resource u) ∧
    (∀ u, isSmoker u = true → s.pc u = PC.woken →
      resource u = absent rnd s.i ∧ s.sum = 0 ∧
        ∀ v, isListener v = true → s.pc v ≠ PC.woken)) ∧
  s.signals.count Cond.a_smoke = smoked s

/-! ## Schedules -/

/-- The six listener and smoker threads each run their first block, up to
their first wait. -/
def startup : List Thread :=
  [Thread.tobacco_listener, Thread.paper_listener, Thread.match_listener,
   Thread.tabacco_smoker, Thread.match_smoker, Thread.paper_smoker]

/-- The two listeners the agent signals when `random()` returned `rand`, in the
order the agent signals them, or in the opposite order when `swap` is set. -/
def round_listeners (rand : Nat) (swap : Bool) : List Thread :=
  match rand % 3 with
  | 0 => if swap then [Thread.paper_listener, Thread.match_listener]
         else [Thread.match_listener, Thread.paper_listener]
  | 1 => if swap then [Thread.tobacco_listener, Thread.match_listener]
         else [Thread.match_listener, Thread.tobacco_listener]
  | _ => if swap then [Thread.tobacco_listener, Thread.paper_listener]
         else [Thread.paper_listener, Thread.tobacco_listener]

/-- The smoker that owns the resource the agent left out. -/
def round_smoker (rand : Nat) : Thread :=
  match rand % 3 with
  | 0 => Thread.tabacco_smoker
  | 1 => Thread.paper_smoker
  | _ => Thread.match_smoker

/-- One round: the agent, the two signalled listeners, the woken smoker. -/
def round_schedule (rand : Nat) (swap : Bool) : List Thread :=
  Thread.agent :: round_listeners rand swap ++ [round_smoker rand]

/-- The start-up followed by the first `n` rounds, where `swap k` fixes the
order of the two listeners in round `k`. -/
def rounds_schedule (rnd : Nat → Nat) (swap : Nat → Bool) : Nat → List Thread
  | 0 => startup
  | n + 1 => rounds_schedule rnd swap n ++ round_schedule (rnd n) (swap n)

/-- A whole run: start-up, `R` rounds, and the agent's last block, in which
its loop ends. -/
def full_schedule (R : Nat) (rnd : Nat → Nat) (swap : Nat → Bool) : List Thread :=
  rounds_schedule rnd swap R ++ [Thread.agent]

/-- The forced choices match+paper, paper+tobacco, match+tobacco, repeated. -/
def forced (k : Nat) : Nat :=
  [0, 2, 1].getD (k % 3) 0

/-- The state a schedule leads to from `init` (`init` itself when the schedule
cannot be run). -/
def final (R : Nat) (rnd : Nat → Nat) (ts : List Thread) : State :=
  (run R rnd ts init).getD init

theorem forall_thread (P : Thread → Prop) :
    (∀ t, P t) ↔
      P Thread.agent ∧ P Thread.tobacco_listener ∧ P Thread.paper_listener ∧
      P Thread.match_listener ∧ P Thread.tabacco_smoker ∧ P Thread.match_smoker ∧
      P Thread.paper_smoker := by
  constructor
  · intro h
    exact ⟨h _, h _, h _, h _, h _, h _, h _⟩
  · rintro ⟨h1, h2, h3, h4, h5, h6, h7⟩ t
    cases t <;> assumption

theorem absent_cases (rnd : Nat → Nat) (i : Nat) :
    absent rnd i = MATCH ∨ absent rnd i = PAPER ∨ absent rnd i = TOBACCO := by
  unfold absent
  have h : rnd i % 3 = 0 ∨ rnd i % 3 = 1 ∨ rnd i % 3 = 2 := by omega
  rcases h with h | h | h <;> simp [h, matching_smoker]

theorem tally_succ (rnd : Nat → Nat) (n : Nat) :
    tally rnd (n + 1) = incr (tally rnd n) (absent rnd n) := rfl

theorem inv_init (R : Nat) (rnd : Nat → Nat) : Inv R rnd init := by
  simp [Inv, init, started, smoked, tally]

theorem inv_match_listener (R : Nat) (rnd : Nat → Nat) (s s' : State)
    (h : Inv R rnd s) (hs : match_listener s = some s') : Inv R rnd s' := by
  unfold match_listener at hs
  have hab := absent_cases rnd s.i
  cases hp : s.pc Thread.match_listener <;> simp [hp] at hs
  · subst hs
    simp only [Inv, forall_thread] at h ⊢
    simp [uthread_cond_wait, setPc, waiter, started, smoked, hp, isListener, isSmoker] at h ⊢
    exact h
  · subst hs
    simp only [Inv, forall_thread] at h ⊢
    obtain ⟨h1, h2, h3, h4, h5, h6, h7, h10⟩ := h
    have hb : s.pc Thread.agent = PC.blocked := by
      by_contra hb
      have h8 := h5 hb
      simp_all
    rcases h6 with h6 | h6 | h6 | h6 <;> rcases hab with hab | hab | hab <;>
    simp [uthread_cond_wait, listener_body, add_resource, try_wake_up_smoker, uthread_cond_signal, setPc, waiter,
      started, smoked, hp, hb, isListener, isSmoker, resource, MATCH, PAPER, TOBACCO, h6, hab,
      ite_apply] at * <;>
    simp_all

theorem inv_paper_listener (R : Nat) (rnd : Nat → Nat) (s s' : State)
    (h : Inv R rnd s) (hs : paper_listener s = some s') : Inv R rnd s' := by
  unfold paper_listener at hs
  have hab := absent_cases rnd s.i
  cases hp : s.pc Thread.paper_listener <;> simp [hp] at hs
  · subst hs
    simp only [Inv, forall_thread] at h ⊢
    simp [uthread_cond_wait, setPc, waiter, started, smoked, hp, isListener, isSmoker] at h ⊢
    exact h
  · subst hs
    simp only [Inv, forall_thread] at h ⊢
    obtain ⟨h1, h2, h3, h4, h5, h6, h7, h10⟩ := h
    have hb : s.pc Thread.agent = PC.blocked := by
      by_contra hb
      have h8 := h5 hb
      simp_all
    rcases h6 with h6 | h6 | h6 | h6 <;> rcases hab with hab | hab | hab <;>
    simp [uthread_cond_wait, listener_body, add_resource, try_wake_up_smoker, uthread_cond_signal, setPc, waiter,
      started, smoked, hp, hb, isListener, isSmoker, resource, MATCH, PAPER, TOBACCO, h6, hab,
      ite_apply] at * <;>
    simp_all

theorem inv_tobacco_listener (R : Nat) (rnd : Nat → Nat) (s s' : State)
    (h : Inv R rnd s) (hs : tobacco_listener s = some s') : Inv R rnd s' := by
  unfold tobacco_listener at hs
  have hab := absent_cases rnd s.i
  cases hp : s.pc Thread.tobacco_listener <;> simp [hp] at hs
  · subst hs
    simp only [Inv, forall_thread] at h ⊢
    simp [uthread_cond_wait, setPc, waiter, started, smoked, hp, isListener, isSmoker] at h ⊢
    exact h
  · subst hs
    simp only [Inv, forall_thread] at h ⊢
    obtain ⟨h1, h2, h3, h4, h5, h6, h7, h10⟩ := h
    have hb : s.pc Thread.agent = PC.blocked := by
      by_contra hb
      have h8 := h5 hb
      simp_all
    rcases h6 with h6 | h6 | h6 | h6 <;> rcases hab with hab | hab | hab <;>
    simp [uthread_cond_wait, listener_body, add_resource, try_wake_up_smoker, uthread_cond_signal, setPc, waiter,
      started, smoked, hp, hb, isListener, isSmoker, resource, MATCH, PAPER, TOBACCO, h6, hab,
      ite_apply] at * <;>
    simp_all

theorem inv_tabacco_smoker (R : Nat) (rnd : Nat → Nat) (s s' : State)
    (h : Inv R rnd s) (hs : tabacco_smoker s = some s') : Inv R rnd s' := by
  unfold tabacco_smoker at hs
  cases hp : s.pc Thread.tabacco_smoker <;> simp [hp] at hs
  · subst hs
    simp only [Inv, forall_thread] at h ⊢
    simp [uthread_cond_wait, setPc, waiter, started, smoked, hp, isListener, isSmoker] at h ⊢
    exact h
  · subst hs
    simp only [Inv, forall_thread] at h ⊢
    obtain ⟨h1, h2, h3, h4, h5, h6, h7, h10⟩ := h
    have hb : s.pc Thread.agent = PC.blocked := by
      by_contra hb
      have h8 := h5 hb
      simp_all
    have hab := absent_cases rnd s.i
    have h9 := h7 hb
    simp [hp, isListener, isSmoker, resource] at h9
    rcases hab with hab | hab | hab <;>
      simp [uthread_cond_wait, smoker_body, uthread_cond_signal, setPc, waiter,
        started, smoked, hp, hb, isListener, isSmoker, resource, ite_apply, tally_succ,
        MATCH, PAPER, TOBACCO, hab] at *
    simp_all

theorem inv_match_smoker (R : Nat) (rnd : Nat → Nat) (s s' : State)
    (h : Inv R rnd s) (hs : match_smoker s = some s') : Inv R rnd s' := by
  unfold match_smoker at hs
  cases hp : s.pc Thread.match_smoker <;> simp [hp] at hs
  · subst hs
    simp only [Inv, forall_thread] at h ⊢
    simp [uthread_cond_wait, setPc, waiter, started, smoked, hp, isListener, isSmoker] at h ⊢
    exact h
  · subst hs
    simp only [Inv, forall_thread] at h ⊢
    obtain ⟨h1, h2, h3, h4, h5, h6, h7, h10⟩ := h
    have hb : s.pc Thread.agent = PC.blocked := by
      by_contra hb
      have h8 := h5 hb
      simp_all
    have hab := absent_cases rnd s.i
    have h9 := h7 hb
    simp [hp, isListener, isSmoker, resource] at h9
    rcases hab with hab | hab | hab <;>
      simp [uthread_cond_wait, smoker_body, uthread_cond_signal, setPc, waiter,
        started, smoked, hp, hb, isListener, isSmoker, resource, ite_apply, tally_succ,
        MATCH, PAPER, TOBACCO, hab] at *
    simp_all

theorem inv_paper_smoker (R : Nat) (rnd : Nat → Nat) (s s' : State)
    (h : Inv R rnd s) (hs : paper_smoker s = some s') : Inv R rnd s' := by
  unfold paper_smoker at hs
  cases hp : s.pc Thread.paper_smoker <;> simp [hp] at hs
  · subst hs
    simp only [Inv, forall_thread] at h ⊢
    simp [uthread_cond_wait, setPc, waiter, started, smoked, hp, isListener, isSmoker] at h ⊢
    exact h
  · subst hs
    simp only [Inv, forall_thread] at h ⊢
    obtain ⟨h1, h2, h3, h4, h5, h6, h7, h10⟩ := h
    have hb : s.pc Thread.agent = PC.blocked := by
      by_contra hb
      have h8 := h5 hb
      simp_all
    have hab := absent_cases rnd s.i
    have h9 := h7 hb
    simp [hp, isListener, isSmoker, resource] at h9
    rcases hab with hab | hab | hab <;>
      simp [uthread_cond_wait, smoker_body, uthread_cond_signal, setPc, waiter,
        started, smoked, hp, hb, isListener, isSmoker, resource, ite_apply, tally_succ,
        MATCH, PAPER, TOBACCO, hab] at *
    simp_all

/-- The round for `random() % 3 = 0`: match and paper are signalled. -/
theorem agent_round_zero (rand : Nat) (s : State) (h : rand % 3 = 0) :
    agent_round rand s =
      uthread_cond_wait Cond.a_smoke (uthread_cond_signal Cond.a_paper
        (uthread_cond_signal Cond.a_match
          { s with signal_count := incr s.signal_count TOBACCO })) := by
  have h1 : Int.land (choices.getD 0 0) MATCH ≠ 0 := by decide
  have h2 : Int.land (choices.getD 0 0) PAPER ≠ 0 := by decide
  have h3 : ¬ Int.land (choices.getD 0 0) TOBACCO ≠ 0 := by decide
  simp only [agent_round, h, if_pos h1, if_pos h2, if_neg h3]
  rfl

/-- The round for `random() % 3 = 1`: match and tobacco are signalled. -/
theorem agent_round_one (rand : Nat) (s : State) (h : rand % 3 = 1) :
    agent_round rand s =
      uthread_cond_wait Cond.a_smoke (uthread_cond_signal Cond.a_tobacco
        (uthread_cond_signal Cond.a_match
          { s with signal_count := incr s.signal_count PAPER })) := by
  have h1 : Int.land (choices.getD 1 0) MATCH ≠ 0 := by decide
  have h2 : ¬ Int.land (choices.getD 1 0) PAPER ≠ 0 := by decide
  have h3 : Int.land (choices.getD 1 0) TOBACCO ≠ 0 := by decide
  simp only [agent_round, h, if_pos h1, if_neg h2, if_pos h3]
  rfl

/-- The round for `random() % 3 = 2`: paper and tobacco are signalled. -/
theorem agent_round_two (rand : Nat) (s : State) (h : rand % 3 = 2) :
    agent_round rand s =
      uthread_cond_wait Cond.a_smoke (uthread_cond_signal Cond.a_tobacco
        (uthread_cond_signal Cond.a_paper
          { s with signal_count := incr s.signal_count MATCH })) := by
  have h1 : ¬ Int.land (choices.getD 2 0) MATCH ≠ 0 := by decide
  have h2 : Int.land (choices.getD 2 0) PAPER ≠ 0 := by decide
  have h3 : Int.land (choices.getD 2 0) TOBACCO ≠ 0 := by decide
  simp only [agent_round, h, if_neg h1, if_pos h2, if_pos h3]
  rfl

theorem inv_agent_loop (R : Nat) (rnd : Nat → Nat) (s : State)
    (h1 : s.signal_count = tally rnd s.i) (h2 : s.smoke_count = tally rnd s.i)
    (h3 : s.i ≤ R) (h4 : s.sum = 0) (h5 : ∀ t, t ≠ Thread.agent → s.pc t ≠ PC.woken)
    (h6 : s.signals.count Cond.a_smoke = s.i) :
    Inv R rnd (agent_loop R rnd s) := by
  unfold agent_loop
  simp only [forall_thread] at h5
  by_cases hlt : s.i < R
  · have hr : rnd s.i % 3 = 0 ∨ rnd s.i % 3 = 1 ∨ rnd s.i % 3 = 2 := by omega
    simp only [Inv, forall_thread, hlt, if_true]
    rcases hr with hr | hr | hr
    · rw [agent_round_zero _ _ hr]
      simp [uthread_cond_wait, uthread_cond_signal, setPc, waiter, started, smoked,
        isListener, isSmoker, resource, ite_apply, tally_succ, absent, matching_smoker,
        MATCH, PAPER, TOBACCO, hr, h1, h2, h4, hlt] at *
      simp_all
    · rw [agent_round_one _ _ hr]
      simp [uthread_cond_wait, uthread_cond_signal, setPc, waiter, started, smoked,
        isListener, isSmoker, resource, ite_apply, tally_succ, absent, matching_smoker,
        MATCH, PAPER, TOBACCO, hr, h1, h2, h4, hlt] at *
      simp_all
    · rw [agent_round_two _ _ hr]
      simp [uthread_cond_wait, uthread_cond_signal, setPc, waiter, started, smoked,
        isListener, isSmoker, resource, ite_apply, tally_succ, absent, matching_smoker,
        MATCH, PAPER, TOBACCO, hr, h1, h2, h4, hlt] at *
      simp_all
  · have he : s.i = R := by omega
    simp only [Inv, forall_thread, hlt, if_false]
    simp [setPc, started, smoked, isListener, isSmoker, h1, h2, h4, he] at *
    simp_all

theorem inv_agent (R : Nat) (rnd : Nat → Nat) (s s' : State)
    (h : Inv R rnd s) (hs : agent R rnd s = some s') : Inv R rnd s' := by
  unfold agent at hs
  obtain ⟨h1, h2, h3, h4, h5, h6, h7, h10⟩ := h
  cases hp : s.pc Thread.agent <;> simp [hp] at hs
  · subst hs
    have h8 := h5 (by simp [hp])
    apply inv_agent_loop <;> simp_all [started, smoked]
  · subst hs
    have h8 := h5 (by simp [hp])
    apply inv_agent_loop <;> simp_all [started, smoked]
    omega

/-- Every block of every thread preserves the invariant. -/
theorem inv_step (R : Nat) (rnd : Nat → Nat) (s s' : State) (t : Thread)
    (h : Inv R rnd s) (hs : step R rnd s t = some s') : Inv R rnd s' := by
  cases t
  · exact inv_agent R rnd s s' h hs
  · exact inv_tobacco_listener R rnd s s' h hs
  · exact inv_paper_listener R rnd s s' h hs
  · exact inv_match_listener R rnd s s' h hs
  · exact inv_tabacco_smoker R rnd s s' h hs
  · exact inv_match_smoker R rnd s s' h hs
  · exact inv_paper_smoker R rnd s s' h hs

/-- Every reachable state satisfies the invariant. -/
theorem inv_reachable (R : Nat) (rnd : Nat → Nat) (s : State)
    (h : Reachable R rnd s) : Inv R rnd s := by
  induction h with
  | start => exact inv_init R rnd
  | next s s' t _ hs ih => exact inv_step R rnd s s' t ih hs

/-! ### Arrays and tallies -/

theorem length_five (a : List Int) (h : a.length = 5) :
    ∃ a0 a1 a2 a3 a4, a = [a0, a1, a2, a3, a4] := by
  match a, h with
  | [a0, a1, a2, a3, a4], _ => exact ⟨a0, a1, a2, a3, a4, rfl⟩

theorem incr_length (a : List Int) (k : Int) : (incr a k).length = a.length := by
  simp [incr]

theorem tally_length (rnd : Nat → Nat) (n : Nat) : (tally rnd n).length = 5 := by
  induction n with
  | zero => rfl
  | succ n ih => rw [tally_succ, incr_length, ih]

theorem at_incr (a : List Int) (h : a.length = 5) (m v : Int)
    (hm : m = MATCH ∨ m = PAPER ∨ m = TOBACCO) (hv : v = MATCH ∨ v = PAPER ∨ v = TOBACCO) :
    at_ (incr a m) v = at_ a v + (if v = m then 1 else 0) := by
  obtain ⟨a0, a1, a2, a3, a4, rfl⟩ := length_five a h
  rcases hm with rfl | rfl | rfl <;> rcases hv with rfl | rfl | rfl <;>
    simp [at_, incr, MATCH, PAPER, TOBACCO]

theorem total_tally (rnd : Nat → Nat) (n : Nat) :
    at_ (tally rnd n) MATCH + at_ (tally rnd n) PAPER + at_ (tally rnd n) TOBACCO = n := by
  induction n with
  | zero => simp [tally, at_, MATCH, PAPER, TOBACCO]
  | succ n ih =>
    have hl := tally_length rnd n
    have hm := absent_cases rnd n
    rw [tally_succ, at_incr _ hl _ _ hm (Or.inl rfl), at_incr _ hl _ _ hm (Or.inr (Or.inl rfl)),
      at_incr _ hl _ _ hm (Or.inr (Or.inr rfl))]
    rcases hm with hm | hm | hm <;> simp [hm, MATCH, PAPER, TOBACCO] at ih ⊢ <;> omega

theorem tally_congr (rnd rnd' : Nat → Nat) (n : Nat)
    (h : ∀ k, k < n → rnd k % 3 = rnd' k % 3) : tally rnd n = tally rnd' n := by
  induction n with
  | zero => rfl
  | succ n ih =>
    rw [tally_succ, tally_succ, ih (fun k hk => h k (by omega))]
    simp only [absent, h n (by omega)]

theorem tally_nonneg (rnd : Nat → Nat) (n : Nat) (v : Int)
    (hv : v = MATCH ∨ v = PAPER ∨ v = TOBACCO) : 0 ≤ at_ (tally rnd n) v := by
  induction n with
  | zero => rcases hv with rfl | rfl | rfl <;> simp [tally, at_, MATCH, PAPER, TOBACCO]
  | succ n ih =>
    rw [tally_succ, at_incr _ (tally_length rnd n) _ _ (absent_cases rnd n) hv]
    split_ifs <;> omega

theorem tally_le (rnd : Nat → Nat) (n : Nat) (v : Int)
    (hv : v = MATCH ∨ v = PAPER ∨ v = TOBACCO) : at_ (tally rnd n) v ≤ n := by
  have h := total_tally rnd n
  have h1 := tally_nonneg rnd n MATCH (Or.inl rfl)
  have h2 := tally_nonneg rnd n PAPER (Or.inr (Or.inl rfl))
  have h3 := tally_nonneg rnd n TOBACCO (Or.inr (Or.inr rfl))
  rcases hv with rfl | rfl | rfl <;> omega

/-! ### Runs -/

theorem reachable_run (R : Nat) (rnd : Nat → Nat) (ts : List Thread) (s s' : State)
    (h : Reachable R rnd s) (hr : run R rnd ts s = some s') : Reachable R rnd s' := by
  induction ts generalizing s with
  | nil =>
    simp only [run, Option.some.injEq] at hr
    exact hr ▸ h
  | cons t ts ih =>
    simp only [run] at hr
    cases hs : step R rnd s t with
    | none => simp [hs] at hr
    | some s1 =>
      rw [hs] at hr
      exact ih s1 (Reachable.next s s1 t h hs) hr

theorem reachable_final (R : Nat) (rnd : Nat → Nat) (ts : List Thread)
    (h : (run R rnd ts init).isSome = true) : Reachable R rnd (final R rnd ts) := by
  cases hr : run R rnd ts init with
  | none => simp [hr] at h
  | some s =>
    have h1 : final R rnd ts = s := by simp [final, hr]
    rw [h1]
    exact reachable_run R rnd ts init s Reachable.start hr

theorem started_le (R : Nat) (rnd : Nat → Nat) (s : State) (h : Inv R rnd s) :
    smoked s ≤ started s ∧ started s ≤ R := by
  obtain ⟨_, _, h3, h4, _⟩ := h
  cases hp : s.pc Thread.agent <;> simp [started, smoked, hp] at * <;> omega

/-- No counter leaves the range of a C `int`: in every reachable state each
entry of `signal_count` and of `smoke_count` lies between 0 and the number of
rounds, which the loop test `i < NUM_ITERATIONS` on an `int` keeps below
`2 ^ 31`.  This is why the counters are modelled without wrap-around. -/
theorem counters_bounded (R : Nat) (rnd : Nat → Nat) (s : State) (h : Reachable R rnd s)
    (v : Int) (hv : v = MATCH ∨ v = PAPER ∨ v = TOBACCO) :
    (0 ≤ at_ s.signal_count v ∧ at_ s.signal_count v ≤ R) ∧
    (0 ≤ at_ s.smoke_count v ∧ at_ s.smoke_count v ≤ R) := by
  have hi := inv_reachable R rnd s h
  obtain ⟨h1, h2⟩ := started_le R rnd s hi
  obtain ⟨e1, e2, _⟩ := hi
  rw [e1, e2]
  have a1 := tally_nonneg rnd (started s) v hv
  have a2 := tally_le rnd (started s) v hv
  have b1 := tally_nonneg rnd (smoked s) v hv
  have b2 := tally_le rnd (smoked s) v hv
  omega

/-- The four assertions at the end of `main` for the program's own
`NUM_ITERATIONS`: they hold in every reachable state in which the agent has
returned. -/
theorem main_assertions (rnd : Nat → Nat) (s : State)
    (h : Reachable NUM_ITERATIONS rnd s) (hf : s.pc Thread.agent = PC.finished) :
    at_ s.signal_count MATCH = at_ s.smoke_count MATCH ∧
    at_ s.signal_count PAPER = at_ s.smoke_count PAPER ∧
    at_ s.signal_count TOBACCO = at_ s.smoke_count TOBACCO ∧
    at_ s.smoke_count MATCH + at_ s.smoke_count PAPER + at_ s.smoke_count TOBACCO = 1000 := by
  obtain ⟨h1, h2, _, h4, _⟩ := inv_reachable NUM_ITERATIONS rnd s h
  simp only [started, smoked, hf] at h1 h2
  rw [h1, h2, total_tally, h4 hf]
  exact ⟨rfl, rfl, rfl, rfl⟩

/-- C1: for every integer `s`, `try_wake_up_smoker(s)` is a total four-case
mapping.  For `s = MATCH + PAPER = 3` it signals exactly `match_and_paper`
(waking the tobacco smoker if it waits) and sets `sum` to 0; for
`s = PAPER + TOBACCO = 6` exactly `paper_and_tobacco` (the match smoker); for
`s = MATCH + TOBACCO = 5` exactly `match_and_tobacco` (the paper smoker); for
every other `s` it signals nothing and leaves the whole state, `sum` included,
as it was.  The counters and the agent's loop variable are never touched. -/
theorem try_wake_up_smoker_cases (s : Int) (st : State) :
    MATCH + PAPER = 3 ∧ PAPER + TOBACCO = 6 ∧ MATCH + TOBACCO = 5 ∧
    (try_wake_up_smoker s st).signals =
      st.signals ++
        (if s = 3 then [Cond.match_and_paper]
         else if s = 6 then [Cond.paper_and_tobacco]
         else if s = 5 then [Cond.match_and_tobacco]
         else []) ∧
    (try_wake_up_smoker s st).sum = (if s = 3 ∨ s = 6 ∨ s = 5 then 0 else st.sum) ∧
    (∀ t, (try_wake_up_smoker s st).pc t =
      if ((s = 3 ∧ t = Thread.tabacco_smoker) ∨ (s = 6 ∧ t = Thread.match_smoker) ∨
          (s = 5 ∧ t = Thread.paper_smoker)) ∧ st.pc t = PC.blocked
      then PC.woken else st.pc t) ∧
    (try_wake_up_smoker s st).signal_count = st.signal_count ∧
    (try_wake_up_smoker s st).smoke_count = st.smoke_count ∧
    (try_wake_up_smoker s st).i = st.i ∧
    ((s = 3 ∨ s = 6 ∨ s = 5) ∨ try_wake_up_smoker s st = st) := by
  refine ⟨by decide, by decide, by decide, ?_⟩
  by_cases h3 : s = 3
  · subst h3
    simp [try_wake_up_smoker, uthread_cond_signal, setPc, waiter, MATCH, PAPER, TOBACCO,
      ite_apply]
    intro t
    cases t <;> simp
  · by_cases h6 : s = 6
    · subst h6
      simp [try_wake_up_smoker, uthread_cond_signal, setPc, waiter, MATCH, PAPER, TOBACCO,
        ite_apply]
      intro t
      cases t <;> simp
    · by_cases h5 : s = 5
      · subst h5
        simp [try_wake_up_smoker, uthread_cond_signal, setPc, waiter, MATCH, PAPER, TOBACCO,
          ite_apply]
        intro t
        cases t <;> simp
      · simp [try_wake_up_smoker, MATCH, PAPER, TOBACCO, h3, h6, h5]

/-! ## The assertions of `main` -/

/-- C2: for every number of rounds `R` and every sequence of choices, in every
state the program can reach in which the agent has completed its `R` rounds and
returned, `signal_count[r] = smoke_count[r]` for `r` = `MATCH`, `PAPER` and
`TOBACCO`: the first three assertions of `main` cannot fail. -/
theorem signal_count_eq_smoke_count (R : Nat) (rnd : Nat → Nat) (s : State)
    (h : Reachable R rnd s) (hf : s.pc Thread.agent = PC.finished) :
    at_ s.signal_count MATCH = at_ s.smoke_count MATCH ∧
    at_ s.signal_count PAPER = at_ s.smoke_count PAPER ∧
    at_ s.signal_count TOBACCO = at_ s.smoke_count TOBACCO := by
  obtain ⟨h1, h2, _⟩ := inv_reachable R rnd s h
  simp only [started, smoked, hf] at h1 h2
  rw [h1, h2]
  exact ⟨rfl, rfl, rfl⟩

theorem signal_count_eq_smoke_count_witness :
    Reachable 3 forced (final 3 forced (full_schedule 3 forced (fun _ => false))) ∧
    (final 3 forced (full_schedule 3 forced (fun _ => false))).pc Thread.agent = PC.finished ∧
    (at_ (final 3 forced (full_schedule 3 forced (fun _ => false))).signal_count MATCH =
        at_ (final 3 forced (full_schedule 3 forced (fun _ => false))).smoke_count MATCH ∧
      at_ (final 3 forced (full_schedule 3 forced (fun _ => false))).signal_count PAPER =
        at_ (final 3 forced (full_schedule 3 forced (fun _ => false))).smoke_count PAPER ∧
      at_ (final 3 forced (full_schedule 3 forced (fun _ => false))).signal_count TOBACCO =
        at_ (final 3 forced (full_schedule 3 forced (fun _ => false))).smoke_count TOBACCO) :=
  ⟨reachable_final 3 forced _ (by decide), by decide,
    signal_count_eq_smoke_count 3 forced _ (reachable_final 3 forced _ (by decide)) (by decide)⟩

/-- C3: for every number of rounds `R` and every sequence of choices, in every
state the program can reach in which the agent has completed its `R` rounds and
returned, `smoke_count[MATCH] + smoke_count[PAPER] + smoke_count[TOBACCO]` is
exactly `R`: the fourth assertion of `main` cannot fail. -/
theorem smoke_count_total (R : Nat) (rnd : Nat → Nat) (s : State)
    (h : Reachable R rnd s) (hf : s.pc Thread.agent = PC.finished) :
    at_ s.smoke_count MATCH + at_ s.smoke_count PAPER + at_ s.smoke_count TOBACCO = R := by
  obtain ⟨_, h2, _, h4, _⟩ := inv_reachable R rnd s h
  simp only [smoked, hf] at h2
  rw [h2, total_tally, h4 hf]

theorem smoke_count_total_witness :
    Reachable 3 forced (final 3 forced (full_schedule 3 forced (fun _ => true))) ∧
    (final 3 forced (full_schedule 3 forced (fun _ => true))).pc Thread.agent = PC.finished ∧
    at_ (final 3 forced (full_schedule 3 forced (fun _ => true))).smoke_count MATCH +
      at_ (final 3 forced (full_schedule 3 forced (fun _ => true))).smoke_count PAPER +
      at_ (final 3 forced (full_schedule 3 forced (fun _ => true))).smoke_count TOBACCO =
        ((3 : Nat) : Int) :=
  ⟨reachable_final 3 forced _ (by decide), by decide,
    smoke_count_total 3 forced _ (reachable_final 3 forced _ (by decide)) (by decide)⟩

/-! ## The accumulator -/

/-- C4: in every state the program can reach from the initial state, `sum` is
one of 0, 1, 2, 4, 3, 5, 6 and is not 7; and the value `sum` takes inside a
listener's block, right after `sum = sum + v` and before the dispatcher runs,
is again one of these and not 7, for each listener that is able to run. -/
theorem sum_in_range (R : Nat) (rnd : Nat → Nat) (s : State) (h : Reachable R rnd s) :
    s.sum ∈ [0, 1, 2, 4, 3, 5, 6] ∧ s.sum ≠ 7 ∧
    (s.pc Thread.tobacco_listener = PC.woken →
      (add_resource TOBACCO s).sum ∈ [0, 1, 2, 4, 3, 5, 6] ∧ (add_resource TOBACCO s).sum ≠ 7) ∧
    (s.pc Thread.paper_listener = PC.woken →
      (add_resource PAPER s).sum ∈ [0, 1, 2, 4, 3, 5, 6] ∧ (add_resource PAPER s).sum ≠ 7) ∧
    (s.pc Thread.match_listener = PC.woken →
      (add_resource MATCH s).sum ∈ [0, 1, 2, 4, 3, 5, 6] ∧ (add_resource MATCH s).sum ≠ 7) := by
  obtain ⟨_, _, _, _, h5, h6, h7, _⟩ := inv_reachable R rnd s h
  have hab := absent_cases rnd s.i
  simp only [forall_thread] at h5 h7
  by_cases hb : s.pc Thread.agent = PC.blocked
  · have h8 := h7 hb
    rcases h6 with h6 | h6 | h6 | h6 <;> rcases hab with hab | hab | hab <;>
      simp [add_resource, isListener, isSmoker, resource, MATCH, PAPER, TOBACCO, h6, hab] at * <;>
      simp_all
  · have h8 := h5 hb
    simp [add_resource, MATCH, PAPER, TOBACCO] at *
    simp_all

theorem sum_in_range_witness :
    Reachable 3 forced (final 3 forced (startup ++ [Thread.agent, Thread.match_listener])) ∧
    (final 3 forced (startup ++ [Thread.agent, Thread.match_listener])).pc
      Thread.paper_listener = PC.woken ∧
    (final 3 forced (startup ++ [Thread.agent, Thread.match_listener])).sum = 1 ∧
    (add_resource PAPER
      (final 3 forced (startup ++ [Thread.agent, Thread.match_listener]))).sum = 3 ∧
    ((add_resource PAPER
        (final 3 forced (startup ++ [Thread.agent, Thread.match_listener]))).sum ∈
      [0, 1, 2, 4, 3, 5, 6] ∧
     (add_resource PAPER
        (final 3 forced (startup ++ [Thread.agent, Thread.match_listener]))).sum ≠ 7) :=
  ⟨reachable_final 3 forced _ (by decide), by decide, by decide, by decide,
    (sum_in_range 3 forced _ (reachable_final 3 forced _ (by decide))).2.2.2.1 (by decide)⟩

/-! ## The resource values -/

/-- C5: with `MATCH = 1`, `PAPER = 2`, `TOBACCO = 4` the sums of two distinct
resources are 3, 6 and 5; they are pairwise distinct, none is 0 or a single
resource value, and none is the sum 7 of all three; hence two two-element sets
of resources with equal sums are the same set. -/
theorem pair_sums_unique :
    (MATCH + PAPER = 3 ∧ PAPER + TOBACCO = 6 ∧ MATCH + TOBACCO = 5) ∧
    (MATCH + PAPER ≠ PAPER + TOBACCO ∧ MATCH + PAPER ≠ MATCH + TOBACCO ∧
      PAPER + TOBACCO ≠ MATCH + TOBACCO) ∧
    (∀ p ∈ [MATCH + PAPER, PAPER + TOBACCO, MATCH + TOBACCO],
      p ∉ [0, MATCH, PAPER, TOBACCO] ∧ p ≠ MATCH + PAPER + TOBACCO) ∧
    MATCH + PAPER + TOBACCO = 7 ∧
    (∀ A ∈ Finset.powersetCard 2 ({MATCH, PAPER, TOBACCO} : Finset Int),
      ∀ B ∈ Finset.powersetCard 2 ({MATCH, PAPER, TOBACCO} : Finset Int),
        A.sum id = B.sum id → A = B) := by
  refine ⟨by decide, by decide, by decide, by decide, by decide⟩

theorem pair_sums_unique_witness :
    ({MATCH, PAPER} : Finset Int) ∈ Finset.powersetCard 2 ({MATCH, PAPER, TOBACCO} : Finset Int) ∧
    ({PAPER, MATCH} : Finset Int) ∈ Finset.powersetCard 2 ({MATCH, PAPER, TOBACCO} : Finset Int) ∧
    ({MATCH, PAPER} : Finset Int).sum id = ({PAPER, MATCH} : Finset Int).sum id ∧
    ({MATCH, PAPER} : Finset Int) = {PAPER, MATCH} :=
  ⟨by decide, by decide, by decide,
    pair_sums_unique.2.2.2.2 _ (by decide) _ (by decide) (by decide)⟩

/-! ## One round of the agent -/

/-- C6, as stated, fails: in the round that makes match and paper available
(`random() % 3 = 0`) from the initial state the agent signals `a->match` and
`a->paper`, yet neither `signal_count[MATCH]` nor `signal_count[PAPER]` grows;
the entry that grows is `signal_count[TOBACCO]`. -/
theorem agent_round_pair_count_counterexample :
    choices.getD (0 % 3) 0 = MATCH + PAPER ∧
    (agent_round 0 init).signals = init.signals ++ [Cond.a_match, Cond.a_paper] ∧
    at_ (agent_round 0 init).signal_count TOBACCO = at_ init.signal_count TOBACCO + 1 ∧
    ¬ (at_ (agent_round 0 init).signal_count MATCH = at_ init.signal_count MATCH + 1 ∧
       at_ (agent_round 0 init).signal_count PAPER = at_ init.signal_count PAPER + 1) := by
  decide

/-- C6, amended: in every round the agent adds one to the `signal_count` entry
of `matching_smoker[r]`, the resource that is not in the chosen pair, and leaves
the entries of the two chosen resources as they were; it signals the
availability conditions of the two resources of the pair `choices[r]`, in the
order match, paper, tobacco, and no other condition; `sum` and `smoke_count`
are not touched. -/
theorem agent_round_effect (rand : Nat) (s : State) (hl : s.signal_count.length = 5) :
    (∀ v ∈ [MATCH, PAPER, TOBACCO],
      at_ (agent_round rand s).signal_count v =
        at_ s.signal_count v + (if v = matching_smoker.getD (rand % 3) 0 then 1 else 0)) ∧
    Int.land (choices.getD (rand % 3) 0) (matching_smoker.getD (rand % 3) 0) = 0 ∧
    (agent_round rand s).signals =
      s.signals ++
        ((if Int.land (choices.getD (rand % 3) 0) MATCH ≠ 0 then [Cond.a_match] else []) ++
         (if Int.land (choices.getD (rand % 3) 0) PAPER ≠ 0 then [Cond.a_paper] else []) ++
         (if Int.land (choices.getD (rand % 3) 0) TOBACCO ≠ 0 then [Cond.a_tobacco] else [])) ∧
    ((if Int.land (choices.getD (rand % 3) 0) MATCH ≠ 0 then [Cond.a_match] else []) ++
      (if Int.land (choices.getD (rand % 3) 0) PAPER ≠ 0 then [Cond.a_paper] else []) ++
      (if Int.land (choices.getD (rand % 3) 0) TOBACCO ≠ 0 then [Cond.a_tobacco] else [])).length
        = 2 ∧
    (agent_round rand s).sum = s.sum ∧
    (agent_round rand s).smoke_count = s.smoke_count := by
  have hr : rand % 3 = 0 ∨ rand % 3 = 1 ∨ rand % 3 = 2 := by omega
  rcases hr with hr | hr | hr
  · rw [agent_round_zero _ _ hr, hr]
    refine ⟨?_, by decide, ?_, by decide, rfl, rfl⟩
    · intro v hv
      simp only [List.mem_cons, List.mem_singleton, List.not_mem_nil, or_false] at hv
      exact at_incr _ hl _ _ (Or.inr (Or.inr rfl)) hv
    · have h1 : Int.land (choices.getD 0 0) MATCH ≠ 0 := by decide
      have h2 : Int.land (choices.getD 0 0) PAPER ≠ 0 := by decide
      have h3 : ¬ Int.land (choices.getD 0 0) TOBACCO ≠ 0 := by decide
      rw [if_pos h1, if_pos h2, if_neg h3]
      simp [uthread_cond_wait, uthread_cond_signal]
  · rw [agent_round_one _ _ hr, hr]
    refine ⟨?_, by decide, ?_, by decide, rfl, rfl⟩
    · intro v hv
      simp only [List.mem_cons, List.mem_singleton, List.not_mem_nil, or_false] at hv
      exact at_incr _ hl _ _ (Or.inr (Or.inl rfl)) hv
    · have h1 : Int.land (choices.getD 1 0) MATCH ≠ 0 := by decide
      have h2 : ¬ Int.land (choices.getD 1 0) PAPER ≠ 0 := by decide
      have h3 : Int.land (choices.getD 1 0) TOBACCO ≠ 0 := by decide
      rw [if_pos h1, if_neg h2, if_pos h3]
      simp [uthread_cond_wait, uthread_cond_signal]
  · rw [agent_round_two _ _ hr, hr]
    refine ⟨?_, by decide, ?_, by decide, rfl, rfl⟩
    · intro v hv
      simp only [List.mem_cons, List.mem_singleton, List.not_mem_nil, or_false] at hv
      exact at_incr _ hl _ _ (Or.inl rfl) hv
    · have h1 : ¬ Int.land (choices.getD 2 0) MATCH ≠ 0 := by decide
      have h2 : Int.land (choices.getD 2 0) PAPER ≠ 0 := by decide
      have h3 : Int.land (choices.getD 2 0) TOBACCO ≠ 0 := by decide
      rw [if_neg h1, if_pos h2, if_pos h3]
      simp [uthread_cond_wait, uthread_cond_signal]

theorem agent_round_effect_witness :
    init.signal_count.length = 5 ∧
    MATCH ∈ [MATCH, PAPER, TOBACCO] ∧
    at_ (agent_round 0 init).signal_count MATCH =
      at_ init.signal_count MATCH + (if MATCH = matching_smoker.getD (0 % 3) 0 then 1 else 0) :=
  ⟨by decide, by decide, (agent_round_effect 0 init (by decide)).1 MATCH (by decide)⟩

/-- C8: the final counters are a function of the sequence of pair choices
alone.  Any two runs from the initial state in which the agent completes its
`R` rounds, with the same choices `random() % 3` in every round, end with the
same `smoke_count` and the same `signal_count` arrays, whatever the order in
which the threads, the two signalled listeners of a round among them, got to
run. -/
theorem counters_determined (R : Nat) (rnd rnd' : Nat → Nat) (s1 s2 : State)
    (h1 : Reachable R rnd s1) (h2 : Reachable R rnd' s2)
    (hc : ∀ k, k < R → rnd k % 3 = rnd' k % 3)
    (hf1 : s1.pc Thread.agent = PC.finished) (hf2 : s2.pc Thread.agent = PC.finished) :
    s1.smoke_count = s2.smoke_count ∧ s1.signal_count = s2.signal_count := by
  obtain ⟨a1, a2, _, a4, _⟩ := inv_reachable R rnd s1 h1
  obtain ⟨b1, b2, _, b4, _⟩ := inv_reachable R rnd' s2 h2
  simp only [started, smoked, hf1] at a1 a2
  simp only [started, smoked, hf2] at b1 b2
  rw [a1, a2, b1, b2, a4 hf1, b4 hf2, tally_congr rnd rnd' R hc]
  exact ⟨rfl, rfl⟩

theorem counters_determined_witness :
    Reachable 3 forced (final 3 forced (full_schedule 3 forced (fun _ => false))) ∧
    Reachable 3 forced (final 3 forced (full_schedule 3 forced (fun _ => true))) ∧
    full_schedule 3 forced (fun _ => false) ≠ full_schedule 3 forced (fun _ => true) ∧
    (final 3 forced (full_schedule 3 forced (fun _ => false))).pc Thread.agent = PC.finished ∧
    (final 3 forced (full_schedule 3 forced (fun _ => true))).pc Thread.agent = PC.finished ∧
    ((final 3 forced (full_schedule 3 forced (fun _ => false))).smoke_count =
        (final 3 forced (full_schedule 3 forced (fun _ => true))).smoke_count ∧
      (final 3 forced (full_schedule 3 forced (fun _ => false))).signal_count =
        (final 3 forced (full_schedule 3 forced (fun _ => true))).signal_count) :=
  ⟨reachable_final 3 forced _ (by decide), reachable_final 3 forced _ (by decide), by decide,
    by decide, by decide,
    counters_determined 3 forced forced _ _ (reachable_final 3 forced _ (by decide))
      (reachable_final 3 forced _ (by decide)) (fun _ _ => rfl) (by decide) (by decide)⟩

/-! ## One round at a time -/

/-- C9: in every state the program can reach at most one smoker is active
(woken from its combined condition, not yet back in its wait); while a smoker
is active the agent is blocked in its wait on `a->smoke` and `sum` is 0;
whenever the agent is able to run its next block, and so to signal a new pair,
`sum` is 0, no smoker is active, no listener has a signal pending, and every
round started so far has had its completion signal (the rounds counted by the
entries of `signal_count`, the completions by the signals on `a->smoke`); at
any time the rounds started exceed the completion signals by at most one. -/
theorem one_round_in_flight (R : Nat) (rnd : Nat → Nat) (s : State) (h : Reachable R rnd s) :
    (∀ t u, isSmoker t = true → isSmoker u = true →
      s.pc t = PC.woken → s.pc u = PC.woken → t = u) ∧
    (∀ t, isSmoker t = true → s.pc t = PC.woken →
      s.pc Thread.agent = PC.blocked ∧ s.sum = 0) ∧
    (∀ s', step R rnd s Thread.agent = some s' →
      s.sum = 0 ∧ (∀ t, isSmoker t = true → s.pc t ≠ PC.woken) ∧
      (∀ t, isListener t = true → s.pc t ≠ PC.woken) ∧
      at_ s.signal_count MATCH + at_ s.signal_count PAPER + at_ s.signal_count TOBACCO =
        s.signals.count Cond.a_smoke) ∧
    at_ s.signal_count MATCH + at_ s.signal_count PAPER + at_ s.signal_count TOBACCO ≤
      s.signals.count Cond.a_smoke + 1 := by
  obtain ⟨h1, _, _, _, h5, _, h7, h8⟩ := inv_reachable R rnd s h
  have hab := absent_cases rnd s.i
  have hsame : ∀ t u, isSmoker t = true → isSmoker u = true →
      resource t = resource u → t = u := by
    intro t u
    cases t <;> cases u <;> simp [isSmoker, resource, MATCH, PAPER, TOBACCO]
  have hblocked : ∀ t, isSmoker t = true → s.pc t = PC.woken →
      s.pc Thread.agent = PC.blocked := by
    intro t ht hw
    by_contra hb
    have h9 := (h5 hb).2 t (by intro he; subst he; simp [isSmoker] at ht)
    exact h9 hw
  refine ⟨?_, ?_, ?_, ?_⟩
  · intro t u ht hu hwt hwu
    have hb := hblocked t ht hwt
    have e1 := ((h7 hb).2.2 t ht hwt).1
    have e2 := ((h7 hb).2.2 u hu hwu).1
    exact hsame t u ht hu (e1.trans e2.symm)
  · intro t ht hw
    have hb := hblocked t ht hw
    exact ⟨hb, ((h7 hb).2.2 t ht hw).2.1⟩
  · intro s' hs
    have hnb : s.pc Thread.agent ≠ PC.blocked := by
      intro hb
      simp [step, agent, hb] at hs
    have hrun : s.pc Thread.agent = PC.entry ∨ s.pc Thread.agent = PC.woken := by
      cases hp : s.pc Thread.agent <;> simp [step, agent, hp] at hs ⊢
    obtain ⟨h9, h10⟩ := h5 hnb
    refine ⟨h9, ?_, ?_, ?_⟩
    · intro t ht
      exact h10 t (by intro he; subst he; simp [isSmoker] at ht)
    · intro t ht
      exact h10 t (by intro he; subst he; simp [isListener] at ht)
    · rw [h1, total_tally, h8]
      rcases hrun with hp | hp <;> simp [started, smoked, hp]
  · rw [h1, total_tally, h8]
    cases hp : s.pc Thread.agent <;> simp [started, smoked, hp]

theorem one_round_in_flight_witness :
    Reachable 3 forced
      (final 3 forced (startup ++ [Thread.agent, Thread.paper_listener, Thread.match_listener])) ∧
    (final 3 forced (startup ++ [Thread.agent, Thread.paper_listener,
      Thread.match_listener])).pc Thread.tabacco_smoker = PC.woken ∧
    (final 3 forced (startup ++ [Thread.agent, Thread.paper_listener,
        Thread.match_listener])).pc Thread.agent = PC.blocked ∧
    (final 3 forced (startup ++ [Thread.agent, Thread.paper_listener,
        Thread.match_listener])).sum = 0 :=
  ⟨reachable_final 3 forced _ (by decide), by decide,
    (one_round_in_flight 3 forced _ (reachable_final 3 forced _ (by decide))).2.1
      Thread.tabacco_smoker (by decide) (by decide)⟩

/-! ## The agent's tables -/

/-- C10: for every value `random()` can return, with `r = random() % 3`: `r`
is a valid index of both tables; `choices[r]`, built with bitwise or, holds
exactly two of the three resource bits and equals the arithmetic sum of those
two resources, which is a case label of `try_wake_up_smoker`;
`matching_smoker[r]` is the one resource not in `choices[r]`
(`choices[r] & matching_smoker[r] = 0`, `choices[r] | matching_smoker[r] = 7`)
and a valid index, at least 0 and below 5, of the two counter arrays; and the
one condition `try_wake_up_smoker(choices[r])` signals belongs to the smoker
that increments `smoke_count[matching_smoker[r]]` when it runs. -/
theorem tables_agree (rand : Nat) :
    rand % 3 < choices.length ∧ rand % 3 < matching_smoker.length ∧
    ([MATCH, PAPER, TOBACCO].filter
      (fun v => decide (Int.land (choices.getD (rand % 3) 0) v ≠ 0))).length = 2 ∧
    choices.getD (rand % 3) 0 =
      ([MATCH, PAPER, TOBACCO].filter
        (fun v => decide (Int.land (choices.getD (rand % 3) 0) v ≠ 0))).sum ∧
    choices.getD (rand % 3) 0 ∈ [MATCH + PAPER, PAPER + TOBACCO, MATCH + TOBACCO] ∧
    matching_smoker.getD (rand % 3) 0 ∈ [MATCH, PAPER, TOBACCO] ∧
    Int.land (choices.getD (rand % 3) 0) (matching_smoker.getD (rand % 3) 0) = 0 ∧
    Int.lor (choices.getD (rand % 3) 0) (matching_smoker.getD (rand % 3) 0) = 7 ∧
    0 ≤ matching_smoker.getD (rand % 3) 0 ∧ matching_smoker.getD (rand % 3) 0 < 5 ∧
    (∀ st : State,
      (try_wake_up_smoker (choices.getD (rand % 3) 0) st).signals.length =
        st.signals.length + 1) ∧
    (∀ (R : Nat) (rnd : Nat → Nat) (st s0 : State) (c : Cond),
      (try_wake_up_smoker (choices.getD (rand % 3) 0) st).signals = st.signals ++ [c] →
      s0.pc (waiter c) = PC.woken →
      isSmoker (waiter c) = true ∧
      ∃ s1, step R rnd s0 (waiter c) = some s1 ∧
        s1.smoke_count = incr s0.smoke_count (matching_smoker.getD (rand % 3) 0)) := by
  have hr : rand % 3 = 0 ∨ rand % 3 = 1 ∨ rand % 3 = 2 := by omega
  rcases hr with hr | hr | hr
  · rw [hr]
    refine ⟨by decide, by decide, by decide, by decide, by decide, by decide, by decide,
      by decide, by decide, by decide, ?_, ?_⟩
    · intro st
      simp [try_wake_up_smoker, uthread_cond_signal, choices, MATCH, PAPER, TOBACCO, Int.lor]
    · intro R rnd st s0 c hc hw
      have hc2 : c = Cond.match_and_paper := by
        simp [try_wake_up_smoker, uthread_cond_signal, choices, MATCH, PAPER, TOBACCO,
          Int.lor] at hc
        exact hc.symm
      subst hc2
      simp only [waiter] at hw
      simp [waiter, isSmoker, step, tabacco_smoker, hw, smoker_body, uthread_cond_signal,
        uthread_cond_wait, matching_smoker]
  · rw [hr]
    refine ⟨by decide, by decide, by decide, by decide, by decide, by decide, by decide,
      by decide, by decide, by decide, ?_, ?_⟩
    · intro st
      simp [try_wake_up_smoker, uthread_cond_signal, choices, MATCH, PAPER, TOBACCO, Int.lor]
    · intro R rnd st s0 c hc hw
      have hc2 : c = Cond.match_and_tobacco := by
        simp [try_wake_up_smoker, uthread_cond_signal, choices, MATCH, PAPER, TOBACCO,
          Int.lor] at hc
        exact hc.symm
      subst hc2
      simp only [waiter] at hw
      simp [waiter, isSmoker, step, paper_smoker, hw, smoker_body, uthread_cond_signal,
        uthread_cond_wait, matching_smoker]
  · rw [hr]
    refine ⟨by decide, by decide, by decide, by decide, by decide, by decide, by decide,
      by decide, by decide, by decide, ?_, ?_⟩
    · intro st
      simp [try_wake_up_smoker, uthread_cond_signal, choices, MATCH, PAPER, TOBACCO, Int.lor]
    · intro R rnd st s0 c hc hw
      have hc2 : c = Cond.paper_and_tobacco := by
        simp [try_wake_up_smoker, uthread_cond_signal, choices, MATCH, PAPER, TOBACCO,
          Int.lor] at hc
        exact hc.symm
      subst hc2
      simp only [waiter] at hw
      simp [waiter, isSmoker, step, match_smoker, hw, smoker_body, uthread_cond_signal,
        uthread_cond_wait, matching_smoker]

theorem tables_agree_witness :
    (try_wake_up_smoker (choices.getD (0 % 3) 0) init).signals =
      init.signals ++ [Cond.match_and_paper] ∧
    (final 3 forced (startup ++ [Thread.agent, Thread.match_listener,
      Thread.paper_listener])).pc (waiter Cond.match_and_paper) = PC.woken ∧
    (isSmoker (waiter Cond.match_and_paper) = true ∧
      ∃ s1, step 3 forced (final 3 forced (startup ++ [Thread.agent, Thread.match_listener,
          Thread.paper_listener])) (waiter Cond.match_and_paper) = some s1 ∧
        s1.smoke_count =
          incr (final 3 forced (startup ++ [Thread.agent, Thread.match_listener,
            Thread.paper_listener])).smoke_count (matching_smoker.getD (0 % 3) 0)) :=
  ⟨by decide, by decide,
    (tables_agree 0).2.2.2.2.2.2.2.2.2.2.2 3 forced init _ Cond.match_and_paper
      (by decide) (by decide)⟩

end Smoke
